import Mathlib

/-!
Shallow embedding of the `presto` Go package (files `presto.go`, `query.go`):
a client-side state machine for Presto's poll-based query protocol.

The HTTP transport (`http.DefaultClient.Do`) is modelled as a finite script
of events consumed head-first; exhausting the script models a network
failure returned by `Do`.  Response bodies are modelled post-hoc: a body is
either unreadable (`ioutil.ReadAll` fails), undecodable (`json.Unmarshal`
fails), or a decoded `queryResult` envelope.  Durations are in milliseconds
(`time.Millisecond` units of the source constants).  Go's `float64` is
modelled by `FloatVal`: an exact rational for ordinary values plus the IEEE
special values NaN and signed infinity produced by division by zero; the
rounding of representable quotients is abstracted away, the zero-divisor
behaviour of `/` is modelled exactly.
-/

namespace Presto

/-- A JSON value, the cell type of result rows (`interface{}` cells in Go). -/
inductive JsonVal where
  | null : JsonVal
  | bool (b : Bool) : JsonVal
  | num (q : ℚ) : JsonVal
  | str (s : String) : JsonVal
  | arr (elems : List JsonVal) : JsonVal
deriving Repr

/-- One result row: `[]interface{}` in Go. -/
abbrev Row := List JsonVal

/-- Go `float64` values relevant to this client: an exact rational, NaN, or a
signed infinity.  `div` mirrors IEEE-754 division of finite operands:
`0/0 = NaN`, `c/0 = ±∞` for `c ≠ 0`, ordinary quotient otherwise (rounding
of representable quotients is abstracted to the exact rational). -/
inductive FloatVal where
  | val (q : ℚ) : FloatVal
  | nan : FloatVal
  | inf (pos : Bool) : FloatVal
deriving DecidableEq, Repr

/-- IEEE-style division of two integers converted to float, as in
`float64(completedSplits) / float64(totalSplits)`. -/
def FloatVal.div (c t : Int) : FloatVal :=
  if t = 0 then
    if c = 0 then .nan else .inf (0 < c)
  else
    .val ((c : ℚ) / (t : ℚ))

/-! Constants from `presto.go` and `query.go`. -/

def version : String := "0.1.1"
def userHeader : String := "X-Presto-User"
def sourceHeader : String := "X-Presto-Source"
def catalogHeader : String := "X-Presto-Catalog"
def schemaHeader : String := "X-Presto-Schema"
def userAgentHeader : String := "User-Agent"
def userAgent : String := "go-presto/" ++ version

/-- `initialRetry = 50 * time.Millisecond`, in milliseconds. -/
def initialRetry : Nat := 50
/-- `maxRetry = 800 * time.Millisecond`, in milliseconds. -/
def maxRetry : Nat := 800
/-- `ProgressUnknown float64 = -1.0`. -/
def ProgressUnknown : FloatVal := .val (-1)

/-! The wire envelope (`queryResult` in `query.go`). -/

/-- `error.failureInfo` of the envelope. -/
structure FailureInfo where
  message : String
deriving DecidableEq, Repr

/-- `error` of the envelope. -/
structure ErrorInfo where
  errorCode : Int
  failureInfo : FailureInfo
deriving DecidableEq, Repr

/-- `stats` of the envelope. -/
structure QueryStats where
  state : String
  scheduled : Bool
  completedSplits : Int
  totalSplits : Int
deriving DecidableEq, Repr

/-- One entry of the envelope's `columns` array (only `name` is decoded). -/
structure ColumnInfo where
  name : String
deriving DecidableEq, Repr

/-- The decoded response envelope (`queryResult`).  `partCancelUri` embeds
the source's `PartialCancelUri` field, parsed but never used. -/
structure QueryResult where
  id : String
  infoUri : String
  nextUri : String
  partCancelUri : String
  data : List Row
  columns : List ColumnInfo
  error : ErrorInfo
  stats : QueryStats
deriving Repr

/-! The transport model. -/

/-- The body of an HTTP response, modelled by how `readResult` can consume
it: `ReadAll` failure, `Unmarshal` failure, or a decoded envelope. -/
inductive BodyContent where
  | readError (msg : String) : BodyContent
  | invalidJson (msg : String) : BodyContent
  | json (r : QueryResult) : BodyContent
deriving Repr

/-- An HTTP response: numeric status code, status line text (`resp.Status`,
e.g. `"204 No Content"`), and body. -/
structure HttpResponse where
  statusCode : Nat
  status : String
  body : BodyContent
deriving Repr

/-- An HTTP request as built by the client. -/
structure HttpRequest where
  method : String
  url : String
  reqBody : String
  headers : List (String × String)
deriving DecidableEq, Repr

/-- One behaviour of `http.DefaultClient.Do`: fail at the transport level,
or deliver a response. -/
inductive TransportEvent where
  | failure (msg : String) : TransportEvent
  | response (resp : HttpResponse) : TransportEvent
deriving Repr

/-- The world outside the session: the remaining transport script (consumed
head-first, one event per `Do` call; an exhausted script models a network
failure on the next call), plus observation logs of the requests issued and
the sleeps performed (milliseconds). -/
structure World where
  events : List TransportEvent
  reqs : List HttpRequest
  sleeps : List Nat
deriving Repr

/-- Outcome of `makeRequest`: a response, or a Go error string. -/
inductive ReqOutcome where
  | ok (resp : HttpResponse) : ReqOutcome
  | err (msg : String) : ReqOutcome
deriving Repr

/-! The `Query` session object. -/

/-- The `Query` struct of `query.go`.  `columns` is `Option` to mirror the
nil/non-nil distinction of the Go slice tested by `q.columns == nil`. -/
structure Query where
  host : String
  user : String
  source : String
  catalog : String
  schema : String
  query : String
  closed : Bool
  id : String
  columns : Option (List String)
  bufferedRows : List Row
  state : String
  progress : FloatVal
  nextUri : String
deriving Repr

/-- `retry *= 2; if retry > maxRetry { retry = maxRetry }`. -/
def nextRetry (retry : Nat) : Nat :=
  if retry * 2 > maxRetry then maxRetry else retry * 2

/-- The five headers added at the top of `makeRequest`. -/
def addHeaders (q : Query) (req : HttpRequest) : HttpRequest :=
  { req with headers := req.headers ++
      [(userAgentHeader, userAgent), (userHeader, q.user),
       (catalogHeader, q.catalog), (schemaHeader, q.schema),
       (sourceHeader, q.source)] }

/-- The retry loop of `makeRequest`: call `Do`; on transport failure return
the error; a 200 response is returned; any status other than 503 is an
unexpected-status error; a 503 sleeps the current delay, doubles it (capped
at `maxRetry`) and retries the same request.  The loop walks the transport
script structurally. -/
def makeRequestLoop (req : HttpRequest) (retry : Nat) :
    List TransportEvent → List HttpRequest → List Nat → ReqOutcome × World
  | [], reqs, sleeps =>
      (.err "transport failure",
       { events := [], reqs := reqs ++ [req], sleeps := sleeps })
  | e :: rest, reqs, sleeps =>
    match e with
    | .failure msg =>
        (.err msg, { events := rest, reqs := reqs ++ [req], sleeps := sleeps })
    | .response resp =>
      if resp.statusCode = 200 then
        (.ok resp, { events := rest, reqs := reqs ++ [req], sleeps := sleeps })
      else if resp.statusCode ≠ 503 then
        (.err ("unexpected http status: " ++ resp.status),
         { events := rest, reqs := reqs ++ [req], sleeps := sleeps })
      else
        makeRequestLoop req (nextRetry retry) rest (reqs ++ [req])
          (sleeps ++ [retry])

/-- `Query.makeRequest`: attach the protocol headers, then run the 503
retry loop starting from the initial delay. -/
def makeRequest (q : Query) (req : HttpRequest) (w : World) :
    ReqOutcome × World :=
  makeRequestLoop (addHeaders q req) initialRetry w.events w.reqs w.sleeps

/-- `Query.readResult`: read the body (may fail), then JSON-decode it into
a `queryResult` (decoding failure is wrapped in a decoding-error message). -/
def readResult (resp : HttpResponse) : Except String QueryResult :=
  match resp.body with
  | .readError msg => .error msg
  | .invalidJson msg =>
      .error ("error decoding json response from presto: " ++ msg)
  | .json r => .ok r

/-- `Query.fetchResult`: make the request, read the envelope, and fail with
a query error when the envelope carries a non-empty failure message. -/
def fetchResult (q : Query) (req : HttpRequest) (w : World) :
    Except String QueryResult × World :=
  match makeRequest q req w with
  | (.err e, w1) => (.error e, w1)
  | (.ok resp, w1) =>
    match readResult resp with
    | .error e => (.error e, w1)
    | .ok r =>
      if r.error.failureInfo.message ≠ "" then
        (.error ("query failed: " ++ r.error.failureInfo.message), w1)
      else
        (.ok r, w1)

/-- The POST request built by `postQuery` (before headers are attached). -/
def postReq (q : Query) : HttpRequest :=
  { method := "POST", url := q.host ++ "/v1/statement",
    reqBody := q.query, headers := [] }

/-- The GET request built by `fetchNext` (before headers are attached). -/
def getReq (q : Query) : HttpRequest :=
  { method := "GET", url := q.nextUri, reqBody := "", headers := [] }

/-- `Query.postQuery`: POST the query text to `host ++ "/v1/statement"`;
on failure mark the session closed; on success record the id and the next
URI. -/
def postQuery (q : Query) (w : World) : Query × Option String × World :=
  match fetchResult q (postReq q) w with
  | (.error e, w1) => ({ q with closed := true }, some e, w1)
  | (.ok r, w1) => ({ q with id := r.id, nextUri := r.nextUri }, none, w1)

/-- The state update of a successful `Query.fetchNext`: replace the
buffered rows with the envelope's batch, record the server state, record
column names the first time a non-empty `columns` array arrives, recompute
progress (`completedSplits / totalSplits` when `scheduled`, else
`ProgressUnknown`), and move to the envelope's next URI, closing the
session when it is empty. -/
def applyEnvelope (q : Query) (r : QueryResult) : Query :=
  let cols : Option (List String) :=
    if q.columns = none ∧ r.columns.length > 0 then
      some (r.columns.map (fun c => c.name))
    else q.columns
  let prog : FloatVal :=
    if r.stats.scheduled then
      FloatVal.div r.stats.completedSplits r.stats.totalSplits
    else ProgressUnknown
  { q with
      bufferedRows := r.data,
      state := r.stats.state,
      columns := cols,
      progress := prog,
      nextUri := r.nextUri,
      closed := if r.nextUri = "" then true else q.closed }

/-- `Query.fetchNext`: GET the current next URI; on failure mark the
session closed and stop; on success apply the envelope. -/
def fetchNext (q : Query) (w : World) : Query × Option String × World :=
  match fetchResult q (getReq q) w with
  | (.error e, w1) => ({ q with closed := true }, some e, w1)
  | (.ok r, w1) => (applyEnvelope q r, none, w1)

/-- The loop body of `Query.Next`: while the session is open and the buffer
is empty, fetch; on fetch failure return the error; if the batch was empty
sleep the current delay and double it (capped).  Once the loop exits, pop
the oldest buffered row, or return the no-more-rows signal (`nil, nil`).
The fuel parameter only bounds recursion depth; every successful fetch
consumes at least one transport event, so `next` supplies enough fuel that
the zero case is unreachable. -/
def nextLoop : Nat → Query → Nat → World → Query × Option Row × Option String × World
  | 0, q, _, w => (q, none, some "out of fuel", w)
  | n + 1, q, retry, w =>
    if q.closed = false ∧ q.bufferedRows.length = 0 then
      match fetchNext q w with
      | (q1, some e, w1) => (q1, none, some e, w1)
      | (q1, none, w1) =>
        if q1.bufferedRows.length = 0 then
          nextLoop n q1 (nextRetry retry) { w1 with sleeps := w1.sleeps ++ [retry] }
        else
          nextLoop n q1 retry w1
    else
      match q.bufferedRows with
      | row :: rest => ({ q with bufferedRows := rest }, some row, none, w)
      | [] => (q, none, none, w)

/-- `Query.Next`: the retry delay starts at `initialRetry` on every call. -/
def next (q : Query) (w : World) : Query × Option Row × Option String × World :=
  nextLoop (w.events.length + 1) q initialRetry w

/-- The DELETE request built by `Close` against the current next URI. -/
def delReq (q : Query) : HttpRequest :=
  { method := "DELETE", url := q.nextUri, reqBody := "", headers := [] }

/-- `Query.Close`: a no-op on an already-closed session; otherwise mark
closed (`q.closed = true` happens before the request, so it sticks on
every path), DELETE the current next URI, and expect status 204. -/
def close (q : Query) (w : World) : Query × Option String × World :=
  if q.closed = true then (q, none, w)
  else
    match makeRequest { q with closed := true } (delReq q) w with
    | (.err e, w1) => ({ q with closed := true }, some e, w1)
    | (.ok resp, w1) =>
      if resp.statusCode ≠ 204 then
        ({ q with closed := true },
         some ("unexpected http status: " ++ resp.status), w1)
      else
        ({ q with closed := true }, none, w1)

/-- An empty parameter falls back to its default. -/
def defaultParam (v dflt : String) : String := if v = "" then dflt else v

/-- The session as initialised by `NewQuery` before submission. -/
def initQuery (host user source catalog schema query : String) : Query :=
  { host := host,
    user := defaultParam user "anonymous",
    source := defaultParam source userAgent,
    catalog := defaultParam catalog "default",
    schema := defaultParam schema "default",
    query := query, closed := false, id := "",
    columns := none, bufferedRows := [], state := "",
    progress := .val 0, nextUri := "" }

/-- `NewQuery`: default empty parameters, submit, then immediately fetch
one result set to fill the column names.  A failed construction returns no
session. -/
def newQuery (host user source catalog schema query : String) (w : World) :
    Option Query × Option String × World :=
  match postQuery (initQuery host user source catalog schema query) w with
  | (_, some e, w1) => (none, some e, w1)
  | (q1, none, w1) =>
    match fetchNext q1 w1 with
    | (_, some e, w2) => (none, some e, w2)
    | (q2, none, w2) => (some q2, none, w2)

/-! Verification drivers: deterministic harnesses over the embedded client,
used to observe sequences of `next` calls the way a caller would. -/

/-- Call `next` repeatedly, collecting the rows delivered, until the
no-more-rows signal or an error; the fuel bounds the number of calls. -/
def drain : Query → World → Nat → List Row × Option String × World
  | _, w, 0 => ([], some "out of fuel", w)
  | q, w, n + 1 =>
    match next q w with
    | (q1, some row, _, w1) =>
      let (rows, e, w2) := drain q1 w1 n
      (row :: rows, e, w2)
    | (_, none, none, w1) => ([], none, w1)
    | (_, none, some e, w1) => ([], some e, w1)

/-- Observe `k` calls to `next` after a construction: the row/error pair of
each call, and whether the session ends closed.  A failed construction
yields `none`. -/
def runCalls : Query → World → Nat → List (Option Row × Option String) × Bool
  | q, _, 0 => ([], q.closed)
  | q, w, k + 1 =>
    match next q w with
    | (q1, row, e, w1) =>
      let (outs, c) := runCalls q1 w1 k
      ((row, e) :: outs, c)

def runScenario (host user source catalog schema query : String) (w : World)
    (k : Nat) : Option (List (Option Row × Option String) × Bool) :=
  match newQuery host user source catalog schema query w with
  | (some q0, _, w0) => some (runCalls q0 w0 k)
  | (none, _, _) => none

/-- The delay (ms) slept before the `i`-th retry of a consecutive
empty/not-ready run: the initial delay doubled `i` times, capped at the
maximum. -/
def retrySeq (i : Nat) : Nat := min (initialRetry * 2 ^ i) maxRetry

/-- A response chain as produced by a well-behaved server: every envelope
is error-free, every envelope except the last carries a continuation, and
the last envelope ends the protocol with an empty `nextUri`. -/
def goodChain : List QueryResult → Prop
  | [] => False
  | [r] => r.error.failureInfo.message = "" ∧ r.nextUri = ""
  | r :: rest => r.error.failureInfo.message = "" ∧ r.nextUri ≠ "" ∧ goodChain rest
/-! Concrete fixtures for witnesses and counterexamples. -/

/-- An all-defaults envelope, specialised by `with` clauses below. -/
def emptyResult : QueryResult :=
  { id := "", infoUri := "", nextUri := "", partCancelUri := "", data := [],
    columns := [],
    error := { errorCode := 0, failureInfo := { message := "" } },
    stats := { state := "", scheduled := false,
               completedSplits := 0, totalSplits := 0 } }

/-- A 200 response whose body decodes to the given envelope. -/
def okJson (r : QueryResult) : TransportEvent :=
  .response { statusCode := 200, status := "200 OK", body := .json r }

/-- A session/world configuration reachable while consuming a good chain:
the remaining transport script is exactly the remaining chain, and either
the session is open with a good chain ahead, or the chain is exhausted and
the session closed. -/
def chainCfg (q : Query) (envs : List QueryResult) (w : World) : Prop :=
  w.events = envs.map okJson ∧
  ((q.closed = false ∧ goodChain envs) ∨ (q.closed = true ∧ envs = []))

/-- The rows still owed to the caller: the buffered rows followed by the
remaining chain's batches, in order. -/
def pending (q : Query) (envs : List QueryResult) : List Row :=
  q.bufferedRows ++ (envs.map QueryResult.data).flatten

/-- A 503 not-ready response. -/
def notReady : TransportEvent :=
  .response { statusCode := 503, status := "503 Service Unavailable",
              body := .readError "" }

/-- A live session mid-query, as left by a successful construction. -/
def sampleQuery : Query :=
  { host := "http://coordinator:8080", user := "alice", source := "cli",
    catalog := "hive", schema := "default", query := "select 1",
    closed := false, id := "20161023_0001", columns := some ["a"],
    bufferedRows := [], state := "RUNNING", progress := .val 0,
    nextUri := "http://coordinator:8080/v1/statement/20161023_0001/2" }

/-- A world holding exactly the given transport script, with empty logs. -/
def mkWorld (events : List TransportEvent) : World :=
  { events := events, reqs := [], sleeps := [] }

def row1 : Row := [.num 1, .str "x"]
def row2 : Row := [.num 2, .str "y"]

/-- A poll envelope reporting `scheduled == true` with zero total splits. -/
def divZeroEnvelope : QueryResult :=
  { emptyResult with
      nextUri := "http://coordinator:8080/v1/statement/20161023_0001/3",
      stats := { state := "RUNNING", scheduled := true,
                 completedSplits := 0, totalSplits := 0 } }

/-- An envelope with 3 of 10 splits completed. -/
def splitEnvelope : QueryResult :=
  { emptyResult with
      nextUri := "http://coordinator:8080/v1/statement/20161023_0001/3",
      stats := { state := "RUNNING", scheduled := true,
                 completedSplits := 3, totalSplits := 10 } }

/-- The invariant of claim C3: an empty continuation handle implies the
session is closed. -/
def handleClosedInv (q : Query) : Prop := q.nextUri = "" → q.closed = true

/-- An error-free envelope that delivers no rows but keeps the protocol
going (the server is still computing). -/
def emptyBatch (r : QueryResult) : Prop :=
  r.error.failureInfo.message = "" ∧ r.data = [] ∧ r.nextUri ≠ ""

/-- Every event of the list is a 503 not-ready response. -/
def all503 (evs : List TransportEvent) : Prop :=
  ∀ e ∈ evs, ∃ resp, e = TransportEvent.response resp ∧ resp.statusCode = 503

/-- The transport script of the end-to-end scenario of §8 of the spec:
submission returns handle `"A"`; the poll at `"A"` (consumed by the
construction itself) returns zero rows and handle `"A"` again; the second
poll at `"A"` returns two rows and an empty handle. -/
def w8 : World := mkWorld
  [okJson { emptyResult with id := "q8", nextUri := "A" },
   okJson { emptyResult with nextUri := "A" },
   okJson { emptyResult with data := [row1, row2], nextUri := "" }]

/-- An already-closed session with an empty buffer. -/
def closedQuery : Query := { sampleQuery with closed := true }

/-- A world whose next transport call fails at the network level. -/
def failWorld : World := mkWorld [.failure "connection refused"]

/-- An envelope carrying a server-reported query failure. -/
def errEnvelope : QueryResult :=
  { emptyResult with
      error := { errorCode := 1,
                 failureInfo := { message := "division by zero" } } }

/-- A transport script whose next fetch fails outside the protocol: the
`Do` call itself fails, or the 200 response's body cannot be read or
decoded as JSON. -/
def failingFetch (w : World) : Prop :=
  (∃ msg rest, w.events = TransportEvent.failure msg :: rest) ∨
  (∃ resp rest msg, w.events = TransportEvent.response resp :: rest ∧
     resp.statusCode = 200 ∧
     (resp.body = BodyContent.readError msg ∨
      resp.body = BodyContent.invalidJson msg))

/-- A two-envelope chain: one row batch each, the second envelope ends the
protocol. -/
def chainEnvs : List QueryResult :=
  [{ emptyResult with
       data := [row1],
       nextUri := "http://coordinator:8080/v1/statement/20161023_0001/3" },
   { emptyResult with data := [row2], nextUri := "" }]

/-! ## Characterization lemmas -/

theorem makeRequestLoop_ok200 (req : HttpRequest) (retry : Nat)
    (resp : HttpResponse) (rest : List TransportEvent)
    (reqs : List HttpRequest) (sleeps : List Nat)
    (hs : resp.statusCode = 200) :
    makeRequestLoop req retry (.response resp :: rest) reqs sleeps =
      (.ok resp, { events := rest, reqs := reqs ++ [req], sleeps := sleeps }) := by
  simp [makeRequestLoop, hs]

theorem fetchResult_okJson (q : Query) (req : HttpRequest) (w : World)
    (r : QueryResult) (rest : List TransportEvent)
    (hev : w.events = okJson r :: rest)
    (hmsg : r.error.failureInfo.message = "") :
    fetchResult q req w =
      (.ok r,
       { events := rest, reqs := w.reqs ++ [addHeaders q req],
         sleeps := w.sleeps }) := by
  unfold fetchResult makeRequest
  rw [hev, okJson, makeRequestLoop_ok200 _ _ _ _ _ _ rfl]
  simp [readResult, hmsg]

theorem fetchNext_okJson (q : Query) (w : World) (r : QueryResult)
    (rest : List TransportEvent)
    (hev : w.events = okJson r :: rest)
    (hmsg : r.error.failureInfo.message = "") :
    fetchNext q w =
      (applyEnvelope q r, none,
       { events := rest, reqs := w.reqs ++ [addHeaders q (getReq q)],
         sleeps := w.sleeps }) := by
  unfold fetchNext
  rw [fetchResult_okJson q _ w r rest hev hmsg]

theorem fetchNext_errJson (q : Query) (w : World) (r : QueryResult)
    (rest : List TransportEvent)
    (hev : w.events = okJson r :: rest)
    (hmsg : r.error.failureInfo.message ≠ "") :
    fetchNext q w =
      ({ q with closed := true },
       some ("query failed: " ++ r.error.failureInfo.message),
       { events := rest, reqs := w.reqs ++ [addHeaders q (getReq q)],
         sleeps := w.sleeps }) := by
  unfold fetchNext fetchResult makeRequest
  rw [hev, okJson, makeRequestLoop_ok200 _ _ _ _ _ _ rfl]
  simp [readResult, hmsg]

theorem progress_applyEnvelope (q : Query) (r : QueryResult) :
    (applyEnvelope q r).progress =
      if r.stats.scheduled then
        FloatVal.div r.stats.completedSplits r.stats.totalSplits
      else ProgressUnknown := rfl

/-! ## Claims -/

/-- C1: the spec says `Close` on a not-yet-closed session returns success
exactly when the server answers the cancellation DELETE with status 204.
The code cannot: `makeRequest` treats every status other than 200 and 503
as an unexpected-status error, so a 204 cancellation acknowledgment is
rejected inside `makeRequest` before `Close`'s own `!= 204` check (which
is consequently unreachable with a success).  Evaluated at a live session
whose DELETE is answered 204, `close` marks the session closed but
returns the unexpected-status error instead of success. -/
theorem close_cancel_ack_rejected :
    (close sampleQuery (mkWorld [.response
        { statusCode := 204, status := "204 No Content",
          body := .readError "" }])).2.1 =
      some "unexpected http status: 204 No Content" ∧
    (close sampleQuery (mkWorld [.response
        { statusCode := 204, status := "204 No Content",
          body := .readError "" }])).1.closed = true := ⟨rfl, rfl⟩

/-- C2 counterexample: on an envelope with `scheduled == true` and
`totalSplits == 0`, the recorded progress is the divide-by-zero result NaN,
not the unknown sentinel `ProgressUnknown` claimed by the spec. -/
theorem progress_divzero_not_sentinel :
    (fetchNext sampleQuery (mkWorld [okJson divZeroEnvelope])).1.progress =
      FloatVal.nan ∧
    FloatVal.nan ≠ ProgressUnknown :=
  ⟨rfl, fun h => FloatVal.noConfusion h⟩

/-- C2 (amended): for every poll envelope, if `scheduled` is false the
recorded progress is `ProgressUnknown` regardless of split counts; if
`scheduled` is true and `totalSplits ≠ 0` it is
`completedSplits / totalSplits`; and if `scheduled` is true with
`totalSplits == 0` it is the IEEE division-by-zero result — NaN when
`completedSplits` is zero, a signed infinity otherwise — not the unknown
sentinel. -/
theorem progress_rule_amended :
    ∀ (q : Query) (w : World) (r : QueryResult) (rest : List TransportEvent),
      w.events = okJson r :: rest →
      r.error.failureInfo.message = "" →
      ((r.stats.scheduled = false →
          (fetchNext q w).1.progress = ProgressUnknown) ∧
       (r.stats.scheduled = true → r.stats.totalSplits ≠ 0 →
          (fetchNext q w).1.progress =
            FloatVal.val ((r.stats.completedSplits : ℚ) /
              (r.stats.totalSplits : ℚ))) ∧
       (r.stats.scheduled = true → r.stats.totalSplits = 0 →
          (fetchNext q w).1.progress =
            (if r.stats.completedSplits = 0 then FloatVal.nan
             else FloatVal.inf (decide (0 < r.stats.completedSplits))) ∧
          (fetchNext q w).1.progress ≠ ProgressUnknown)) := by
  intro q w r rest hev hmsg
  rw [fetchNext_okJson q w r rest hev hmsg]
  refine ⟨fun hs => ?_, fun hs ht => ?_, fun hs ht => ?_⟩
  · simp [progress_applyEnvelope, hs]
  · simp [progress_applyEnvelope, hs, FloatVal.div, ht]
  · constructor
    · simp [progress_applyEnvelope, hs, FloatVal.div, ht]
    · simp only [progress_applyEnvelope, hs, if_true, FloatVal.div, ht,
        if_pos rfl]
      by_cases hc : r.stats.completedSplits = 0 <;>
        simp [hc, ProgressUnknown]

/-- Witness for the amended C2 at a concrete envelope: 3 of 10 splits
completed gives progress 3/10. -/
theorem progress_rule_amended_witness :
    (mkWorld [okJson splitEnvelope]).events = okJson splitEnvelope :: [] ∧
    splitEnvelope.error.failureInfo.message = "" ∧
    (fetchNext sampleQuery (mkWorld [okJson splitEnvelope])).1.progress =
      FloatVal.val ((3 : ℚ) / 10) := by
  refine ⟨rfl, rfl, ?_⟩
  have h := (progress_rule_amended sampleQuery (mkWorld [okJson splitEnvelope])
      splitEnvelope [] rfl rfl).2.1 rfl (by decide)
  simpa using h

/-! ## More characterization lemmas -/

theorem makeRequestLoop_do_failure (req : HttpRequest) (retry : Nat)
    (msg : String) (rest : List TransportEvent)
    (reqs : List HttpRequest) (sleeps : List Nat) :
    makeRequestLoop req retry (TransportEvent.failure msg :: rest) reqs sleeps =
      (.err msg,
       { events := rest, reqs := reqs ++ [req], sleeps := sleeps }) := by
  simp [makeRequestLoop]

theorem makeRequestLoop_badStatus (req : HttpRequest) (retry : Nat)
    (resp : HttpResponse) (rest : List TransportEvent)
    (reqs : List HttpRequest) (sleeps : List Nat)
    (h200 : resp.statusCode ≠ 200) (h503 : resp.statusCode ≠ 503) :
    makeRequestLoop req retry (TransportEvent.response resp :: rest) reqs sleeps =
      (.err ("unexpected http status: " ++ resp.status),
       { events := rest, reqs := reqs ++ [req], sleeps := sleeps }) := by
  simp [makeRequestLoop, h200, h503]

theorem fetchNext_err_frame (q : Query) (w : World) (e : String)
    (h : (fetchNext q w).2.1 = some e) :
    (fetchNext q w).1 = { q with closed := true } := by
  unfold fetchNext at h ⊢
  rcases hfr : fetchResult q (getReq q) w with ⟨res, w1⟩
  rw [hfr] at h
  cases res with
  | error e2 => rfl
  | ok r => exact Option.noConfusion h

theorem postQuery_err_frame (q : Query) (w : World) (e : String)
    (h : (postQuery q w).2.1 = some e) :
    (postQuery q w).1 = { q with closed := true } := by
  unfold postQuery at h ⊢
  rcases hfr : fetchResult q (postReq q) w with ⟨res, w1⟩
  rw [hfr] at h
  cases res with
  | error e2 => rfl
  | ok r => exact Option.noConfusion h

theorem fetchResult_do_failure (q : Query) (req : HttpRequest) (w : World)
    (msg : String) (rest : List TransportEvent)
    (hev : w.events = TransportEvent.failure msg :: rest) :
    fetchResult q req w =
      (.error msg,
       { events := rest, reqs := w.reqs ++ [addHeaders q req],
         sleeps := w.sleeps }) := by
  unfold fetchResult makeRequest
  rw [hev, makeRequestLoop_do_failure]

theorem fetchResult_badBody (q : Query) (req : HttpRequest) (w : World)
    (resp : HttpResponse) (rest : List TransportEvent) (msg : String)
    (hev : w.events = TransportEvent.response resp :: rest)
    (h200 : resp.statusCode = 200)
    (hbody : resp.body = BodyContent.readError msg ∨
             resp.body = BodyContent.invalidJson msg) :
    (fetchResult q req w).2 =
      { events := rest, reqs := w.reqs ++ [addHeaders q req],
        sleeps := w.sleeps } ∧
    ∃ e, (fetchResult q req w).1 = .error e := by
  unfold fetchResult makeRequest
  rw [hev, makeRequestLoop_ok200 _ _ _ _ _ _ h200]
  rcases hbody with hb | hb <;> simp [readResult, hb]

theorem applyEnvelope_handleClosedInv (q : Query) (r : QueryResult) :
    handleClosedInv (applyEnvelope q r) := by
  intro h
  simp only [applyEnvelope] at h ⊢
  simp [h]

theorem fetchNext_handleClosedInv (q : Query) (w : World) :
    handleClosedInv (fetchNext q w).1 := by
  unfold fetchNext
  rcases hfr : fetchResult q (getReq q) w with ⟨res, w1⟩
  cases res with
  | error e => intro _; rfl
  | ok r => exact applyEnvelope_handleClosedInv q r

theorem nextLoop_handleClosedInv :
    ∀ (n : Nat) (q : Query) (retry : Nat) (w : World),
      handleClosedInv q → handleClosedInv (nextLoop n q retry w).1 := by
  intro n
  induction n with
  | zero => intro q retry w h; exact h
  | succ n ih =>
    intro q retry w h
    rw [nextLoop]
    by_cases hg : q.closed = false ∧ q.bufferedRows.length = 0
    · rw [if_pos hg]
      rcases hf : fetchNext q w with ⟨q1, e, w1⟩
      have hinv := fetchNext_handleClosedInv q w
      rw [hf] at hinv
      cases e with
      | some e => exact hinv
      | none =>
        dsimp only
        by_cases hb : q1.bufferedRows.length = 0
        · rw [if_pos hb]; exact ih q1 (nextRetry retry) _ hinv
        · rw [if_neg hb]; exact ih q1 retry w1 hinv
    · rw [if_neg hg]
      cases hbr : q.bufferedRows with
      | nil => exact h
      | cons row rest => intro hn; exact h hn

theorem next_pop (q : Query) (w : World) (row : Row) (rest : List Row)
    (hb : q.bufferedRows = row :: rest) :
    next q w = ({ q with bufferedRows := rest }, some row, none, w) := by
  rw [next, nextLoop, hb]
  simp

theorem next_closed_empty (q : Query) (w : World)
    (hc : q.closed = true) (hb : q.bufferedRows = []) :
    next q w = (q, none, none, w) := by
  rw [next, nextLoop, hb]
  simp [hc]

theorem close_query_shape (q : Query) (w : World) :
    (close q w).1 = { q with closed := true } := by
  unfold close
  by_cases h : q.closed = true
  · rw [if_pos h]
    show q = { q with closed := true }
    cases q
    simp_all
  · rw [if_neg h]
    rcases hmk : makeRequest { q with closed := true } (delReq q) w
      with ⟨out, w1⟩
    cases out with
    | err e => rfl
    | ok resp =>
      dsimp only
      by_cases h204 : resp.statusCode ≠ 204
      · rw [if_pos h204]
      · rw [if_neg h204]

theorem drain_closed :
    ∀ (rs : List Row) (q : Query) (w : World),
      q.closed = true → q.bufferedRows = rs →
      drain q w (rs.length + 1) = (rs, none, w) := by
  intro rs
  induction rs with
  | nil =>
    intro q w hc hb
    rw [show ([] : List Row).length + 1 = 1 from rfl, drain,
      next_closed_empty q w hc hb]
  | cons r rest ih =>
    intro q w hc hb
    rw [drain, next_pop q w r rest hb]
    dsimp only
    rw [List.length_cons, ih { q with bufferedRows := rest } w hc rfl]

/-! ## Claims C3, C5, C6, C9, C10 -/

/-- C3: at every state observable at the public interface — after a
successful construction, after each `next`, after each `close` — an empty
continuation handle implies the session is closed; the poll cycle
establishes this whenever the envelope's next handle is empty, and no
operation sequence leaves a session open with an empty handle. -/
theorem empty_handle_implies_closed :
    (∀ (host user source catalog schema query : String) (w : World)
       (q : Query) (e : Option String) (w1 : World),
       newQuery host user source catalog schema query w = (some q, e, w1) →
       handleClosedInv q) ∧
    (∀ (q : Query) (w : World), handleClosedInv q →
       handleClosedInv (next q w).1) ∧
    (∀ (q : Query) (w : World), handleClosedInv q →
       handleClosedInv (close q w).1) := by
  refine ⟨?_, ?_, ?_⟩
  · intro host user source catalog schema query w q e w1 hq
    unfold newQuery at hq
    rcases hp : postQuery (initQuery host user source catalog schema query) w
      with ⟨q1, e1, w1'⟩
    rw [hp] at hq
    cases e1 with
    | some e' => simp at hq
    | none =>
      dsimp only at hq
      rcases hf : fetchNext q1 w1' with ⟨q2, e2, w2⟩
      rw [hf] at hq
      cases e2 with
      | some e' => simp at hq
      | none =>
        have hinv := fetchNext_handleClosedInv q1 w1'
        rw [hf] at hinv
        simp only [Prod.mk.injEq, Option.some.injEq] at hq
        rwa [← hq.1]
  · intro q w h
    exact nextLoop_handleClosedInv _ q initialRetry w h
  · intro q w h
    intro hn
    rw [close_query_shape q w]

/-- Witness for C3 at a concrete session: a live session with a non-empty
handle keeps the invariant across a `next` call that fails at the
transport level. -/
theorem empty_handle_implies_closed_witness :
    handleClosedInv sampleQuery ∧
    handleClosedInv (next sampleQuery failWorld).1 :=
  ⟨fun h => absurd h (by decide),
   empty_handle_implies_closed.2.1 sampleQuery failWorld
     (fun h => absurd h (by decide))⟩

theorem fetchNext_fetchResult_error (q : Query) (w : World) (e : String)
    (w1 : World) (h : fetchResult q (getReq q) w = (.error e, w1)) :
    fetchNext q w = ({ q with closed := true }, some e, w1) := by
  unfold fetchNext
  rw [h]

theorem postQuery_fetchResult_error (q : Query) (w : World) (e : String)
    (w1 : World) (h : fetchResult q (postReq q) w = (.error e, w1)) :
    postQuery q w = ({ q with closed := true }, some e, w1) := by
  unfold postQuery
  rw [h]

/-- C5: an envelope whose `error.failureInfo.message` is non-empty makes
the poll fail with a query-failure error carrying that message and marks
the session closed, with every other field — `bufferedRows`, `columns`,
`nextUri` included — untouched, so no row of that envelope is ever
exposed; `next` surfaces the same error without delivering a row. -/
theorem error_envelope_fatal :
    ∀ (q : Query) (w : World) (r : QueryResult) (rest : List TransportEvent),
      w.events = okJson r :: rest →
      r.error.failureInfo.message ≠ "" →
      (fetchNext q w =
         ({ q with closed := true },
          some ("query failed: " ++ r.error.failureInfo.message),
          { events := rest, reqs := w.reqs ++ [addHeaders q (getReq q)],
            sleeps := w.sleeps })) ∧
      (q.closed = false → q.bufferedRows = [] →
         next q w =
           ({ q with closed := true }, none,
            some ("query failed: " ++ r.error.failureInfo.message),
            { events := rest, reqs := w.reqs ++ [addHeaders q (getReq q)],
              sleeps := w.sleeps })) := by
  intro q w r rest hev hmsg
  have hf := fetchNext_errJson q w r rest hev hmsg
  refine ⟨hf, fun hc hb => ?_⟩
  have hlen : w.events.length = rest.length + 1 := by rw [hev]; rfl
  rw [next, hlen, nextLoop, if_pos ⟨hc, by simp [hb]⟩, hf]

/-- Witness for C5: a poll that hits a failed envelope surfaces the
server's message through `next`. -/
theorem error_envelope_fatal_witness :
    (mkWorld [okJson errEnvelope]).events = okJson errEnvelope :: [] ∧
    errEnvelope.error.failureInfo.message ≠ "" ∧
    sampleQuery.closed = false ∧ sampleQuery.bufferedRows = [] ∧
    (next sampleQuery (mkWorld [okJson errEnvelope])).2.2.1 =
      some "query failed: division by zero" := by
  refine ⟨rfl, by decide, rfl, rfl, ?_⟩
  rw [(error_envelope_fatal sampleQuery (mkWorld [okJson errEnvelope])
    errEnvelope [] rfl (by decide)).2 rfl rfl]
  rfl

/-- C6: `closed` is terminal and monotonic — on a closed session `next`
issues no transport operation (the world, including its request log, is
returned untouched) and the session stays closed, and `close` on a closed
session is a no-op returning success (`nil` error) with no cancellation
request issued. -/
theorem closed_terminal_idempotent :
    ∀ (q : Query) (w : World), q.closed = true →
      (next q w).1.closed = true ∧
      (next q w).2.2.2 = w ∧
      close q w = (q, none, w) := by
  intro q w h
  have hc : ¬ (q.closed = false ∧ q.bufferedRows.length = 0) := by
    rintro ⟨h1, _⟩
    rw [h] at h1
    exact Bool.noConfusion h1
  refine ⟨?_, ?_, ?_⟩
  · rw [next, nextLoop, if_neg hc]
    cases hb : q.bufferedRows with
    | nil => exact h
    | cons a l => exact h
  · rw [next, nextLoop, if_neg hc]
    cases hb : q.bufferedRows with
    | nil => rfl
    | cons a l => rfl
  · rw [close, if_pos h]

/-- Witness for C6: closing an already-closed session is a no-op success. -/
theorem closed_terminal_idempotent_witness :
    closedQuery.closed = true ∧
    close closedQuery failWorld = (closedQuery, none, failWorld) :=
  ⟨rfl, (closed_terminal_idempotent closedQuery failWorld rfl).2.2⟩

/-- C9: `close` modifies only the `closed` flag — its session result is
the input with `closed := true` on every path — and rows already buffered
when `close` is called are still delivered afterwards, in order, by
draining with `next`, with the world (and hence the transport log)
untouched. -/
theorem close_frame_only_closed :
    ∀ (q : Query) (w w2 : World),
      (close q w).1 = { q with closed := true } ∧
      drain (close q w).1 w2 (q.bufferedRows.length + 1) =
        (q.bufferedRows, none, w2) := by
  intro q w w2
  refine ⟨close_query_shape q w, ?_⟩
  rw [close_query_shape q w]
  exact drain_closed q.bufferedRows { q with closed := true } w2 rfl rfl

/-- C10: whenever a fetch fails at the transport level or on body
read/JSON decode (and in fact on any reported fetch error), the session
result equals the input session with only `closed` flipped to true —
`bufferedRows`, `columns`, `nextUri`, `progress`, `state` and `id` keep
their prior values — both for polls (`fetchNext`) and for submission
(`postQuery`). -/
theorem fetch_failure_only_closes :
    ∀ (q : Query) (w : World),
      (failingFetch w →
         ((fetchNext q w).2.1.isSome = true ∧
          (fetchNext q w).1 = { q with closed := true }) ∧
         ((postQuery q w).2.1.isSome = true ∧
          (postQuery q w).1 = { q with closed := true })) ∧
      (∀ e, (fetchNext q w).2.1 = some e →
         (fetchNext q w).1 = { q with closed := true }) ∧
      (∀ e, (postQuery q w).2.1 = some e →
         (postQuery q w).1 = { q with closed := true }) := by
  intro q w
  refine ⟨?_, fetchNext_err_frame q w, postQuery_err_frame q w⟩
  intro hf
  have key : ∀ req : HttpRequest, ∃ e w1,
      fetchResult q req w = (.error e, w1) := by
    intro req
    rcases hf with ⟨msg, rest, hev⟩ | ⟨resp, rest, msg, hev, h200, hbody⟩
    · exact ⟨msg, _, fetchResult_do_failure q req w msg rest hev⟩
    · obtain ⟨hw, e, he⟩ :=
        fetchResult_badBody q req w resp rest msg hev h200 hbody
      refine ⟨e, (fetchResult q req w).2, ?_⟩
      rw [← he]
  refine ⟨?_, ?_⟩
  · obtain ⟨e, w1, he⟩ := key (getReq q)
    have h2 := fetchNext_fetchResult_error q w e w1 he
    exact ⟨by simp [h2], by simp [h2]⟩
  · obtain ⟨e, w1, he⟩ := key (postReq q)
    have h2 := postQuery_fetchResult_error q w e w1 he
    exact ⟨by simp [h2], by simp [h2]⟩

/-- Witness for C10: a network failure on the poll closes the session and
changes nothing else. -/
theorem fetch_failure_only_closes_witness :
    failingFetch failWorld ∧
    (fetchNext sampleQuery failWorld).1 =
      { sampleQuery with closed := true } :=
  ⟨Or.inl ⟨"connection refused", [], rfl⟩,
   (((fetch_failure_only_closes sampleQuery failWorld).1
       (Or.inl ⟨"connection refused", [], rfl⟩)).1).2⟩

/-- C8: when the session is closed and the buffer is empty, `next` returns
the explicit no-more-rows signal (nil row, nil error), not an error; and
in the §8 scenario — submission returns handle `"A"`, the first poll at
`"A"` returns zero rows and `"A"` again, the second poll returns two rows
and an empty handle — three successive `next` calls after construction
deliver row1, row2, and the end-of-data signal, with the session closed
at the end. -/
theorem end_of_data_signal :
    (∀ (q : Query) (w : World), q.closed = true → q.bufferedRows = [] →
       next q w = (q, none, none, w)) ∧
    runScenario "http://coordinator:8080" "" "" "" "" "select 1" w8 3 =
      some ([(some row1, none), (some row2, none), (none, none)], true) :=
  ⟨fun q w hc hb => next_closed_empty q w hc hb, rfl⟩

/-- Witness for C8: the no-more-rows signal on a concrete closed, drained
session. -/
theorem end_of_data_signal_witness :
    closedQuery.closed = true ∧ closedQuery.bufferedRows = [] ∧
    next closedQuery failWorld = (closedQuery, none, none, failWorld) :=
  ⟨rfl, rfl, end_of_data_signal.1 closedQuery failWorld rfl rfl⟩

/-! ## Backoff lemmas (C7) -/

theorem retrySeq_zero : retrySeq 0 = initialRetry := by decide

theorem retrySeq_le (i : Nat) : retrySeq i ≤ maxRetry :=
  Nat.min_le_right _ _

theorem nextRetry_retrySeq (i : Nat) :
    nextRetry (retrySeq i) = retrySeq (i + 1) := by
  unfold nextRetry retrySeq initialRetry maxRetry
  rw [pow_succ, ← Nat.mul_assoc]
  generalize 50 * 2 ^ i = a
  simp only [Nat.min_def]
  split_ifs <;> omega

theorem retrySeq_succ (i : Nat) :
    retrySeq (i + 1) = min (retrySeq i * 2) maxRetry := by
  unfold retrySeq initialRetry maxRetry
  rw [pow_succ, ← Nat.mul_assoc]
  generalize 50 * 2 ^ i = a
  simp only [Nat.min_def]
  split_ifs <;> omega

theorem retry_map_shift (i k : Nat) :
    retrySeq i :: (List.range k).map (fun j => retrySeq (i + 1 + j)) =
      (List.range (k + 1)).map (fun j => retrySeq (i + j)) := by
  rw [List.range_succ_eq_map, List.map_cons, List.map_map]
  have hf : ((fun j => retrySeq (i + j)) ∘ Nat.succ) =
      (fun j => retrySeq (i + 1 + j)) := by
    funext j
    have : i + Nat.succ j = i + 1 + j := by omega
    simp [Function.comp, this]
  rw [hf]
  simp

theorem makeRequestLoop_backoff :
    ∀ (evs : List TransportEvent) (req : HttpRequest) (i : Nat)
      (resp : HttpResponse) (rest : List TransportEvent)
      (reqs : List HttpRequest) (sleeps : List Nat),
      all503 evs → resp.statusCode = 200 →
      makeRequestLoop req (retrySeq i)
          (evs ++ TransportEvent.response resp :: rest) reqs sleeps =
        (.ok resp,
         { events := rest,
           reqs := reqs ++ List.replicate (evs.length + 1) req,
           sleeps := sleeps ++
             (List.range evs.length).map (fun j => retrySeq (i + j)) }) := by
  intro evs
  induction evs with
  | nil =>
    intro req i resp rest reqs sleeps _ h200
    rw [List.nil_append, makeRequestLoop_ok200 _ _ _ _ _ _ h200]
    simp
  | cons e evs ih =>
    intro req i resp rest reqs sleeps h503 h200
    obtain ⟨r5, he, hc⟩ := h503 e (List.mem_cons_self e _)
    subst he
    rw [List.cons_append]
    show makeRequestLoop req (retrySeq i)
        (TransportEvent.response r5 :: (evs ++ _ :: rest)) reqs sleeps = _
    rw [makeRequestLoop]
    rw [if_neg (by rw [hc]; omega), if_neg (by rw [hc]; simp)]
    rw [nextRetry_retrySeq]
    rw [ih req (i + 1) resp rest (reqs ++ [req]) (sleeps ++ [retrySeq i])
      (fun x hx => h503 x (List.mem_cons_of_mem _ hx)) h200]
    rw [List.append_assoc, List.append_assoc, List.singleton_append,
      List.singleton_append, retry_map_shift]
    simp [List.replicate_succ]

theorem applyEnvelope_open (q : Query) (r : QueryResult)
    (hc : q.closed = false) (hu : r.nextUri ≠ "") :
    (applyEnvelope q r).closed = false := by
  simp [applyEnvelope, hu, hc]

theorem applyEnvelope_bufferedRows (q : Query) (r : QueryResult) :
    (applyEnvelope q r).bufferedRows = r.data := rfl

theorem nextLoop_backoff :
    ∀ (envs : List QueryResult) (q : Query) (i n : Nat) (w : World)
      (full : QueryResult) (rest : List TransportEvent),
      (∀ r ∈ envs, emptyBatch r) →
      full.error.failureInfo.message = "" → full.data ≠ [] →
      q.closed = false → q.bufferedRows = [] →
      w.events = envs.map okJson ++ okJson full :: rest →
      envs.length + 2 ≤ n →
      (nextLoop n q (retrySeq i) w).2.2.2.sleeps =
        w.sleeps ++ (List.range envs.length).map (fun j => retrySeq (i + j)) := by
  intro envs
  induction envs with
  | nil =>
    intro q i n w full rest _ hmsg hdata hc hb hev hn
    obtain ⟨m, rfl⟩ : ∃ m, n = m + 1 + 1 := ⟨n - 2, by omega⟩
    simp only [List.map_nil, List.nil_append] at hev
    rw [nextLoop, if_pos ⟨hc, by simp [hb]⟩,
      fetchNext_okJson q w full rest hev hmsg]
    dsimp only
    rw [if_neg (by
      rw [applyEnvelope_bufferedRows]
      simpa using hdata)]
    rw [nextLoop, if_neg (by
      rintro ⟨_, h0⟩
      rw [applyEnvelope_bufferedRows] at h0
      exact hdata (List.length_eq_zero.mp h0))]
    cases hd : full.data with
    | nil => exact absurd hd hdata
    | cons a l =>
      rw [applyEnvelope_bufferedRows, hd]
      simp
  | cons env envs ih =>
    intro q i n w full rest hall hmsg hdata hc hb hev hn
    obtain ⟨m, rfl⟩ : ∃ m, n = m + 1 := ⟨n - 1, by omega⟩
    obtain ⟨h1, h2, h3⟩ := hall env (List.mem_cons_self env _)
    rw [List.map_cons, List.cons_append] at hev
    rw [nextLoop, if_pos ⟨hc, by simp [hb]⟩,
      fetchNext_okJson q w env _ hev h1]
    dsimp only
    rw [if_pos (by rw [applyEnvelope_bufferedRows, h2]; rfl)]
    rw [nextRetry_retrySeq]
    rw [ih (applyEnvelope q env) (i + 1) m _ full rest
      (fun x hx => hall x (List.mem_cons_of_mem _ hx)) hmsg hdata
      (applyEnvelope_open q env hc h3)
      (by rw [applyEnvelope_bufferedRows, h2])
      rfl
      (by simpa using hn)]
    dsimp only
    rw [List.append_assoc, List.singleton_append, retry_map_shift]
    simp

/-- C7: within one transport call and within one `next` call, the sleep
delays for a run of consecutive not-ready (503) responses, respectively a
run of consecutive error-free empty-batch polls, form the sequence
`retrySeq 0, retrySeq 1, …` where `retrySeq i = min (initialRetry * 2^i)
maxRetry`: the sequence starts at the initial delay (50ms), doubles after
each consecutive empty/not-ready result, is capped at the maximum delay
(800ms), and restarts at the initial delay on each top-level `next` call
(the formula below starts at `retrySeq 0` for every call, regardless of
any earlier call's history). -/
theorem backoff_doubling_capped :
    retrySeq 0 = initialRetry ∧
    (∀ i, retrySeq (i + 1) = min (retrySeq i * 2) maxRetry) ∧
    (∀ i, retrySeq i ≤ maxRetry) ∧
    (∀ (q : Query) (req : HttpRequest) (w : World)
       (evs : List TransportEvent) (resp : HttpResponse)
       (rest : List TransportEvent),
       all503 evs → resp.statusCode = 200 →
       w.events = evs ++ TransportEvent.response resp :: rest →
       (makeRequest q req w).2.sleeps =
         w.sleeps ++ (List.range evs.length).map retrySeq) ∧
    (∀ (envs : List QueryResult) (q : Query) (w : World)
       (full : QueryResult) (rest : List TransportEvent),
       (∀ r ∈ envs, emptyBatch r) →
       full.error.failureInfo.message = "" → full.data ≠ [] →
       q.closed = false → q.bufferedRows = [] →
       w.events = envs.map okJson ++ okJson full :: rest →
       (next q w).2.2.2.sleeps =
         w.sleeps ++ (List.range envs.length).map retrySeq) := by
  refine ⟨retrySeq_zero, retrySeq_succ, retrySeq_le, ?_, ?_⟩
  · intro q req w evs resp rest h503 h200 hev
    rw [makeRequest, ← retrySeq_zero, hev,
      makeRequestLoop_backoff evs (addHeaders q req) 0 resp rest w.reqs
        w.sleeps h503 h200]
    simp
  · intro envs q w full rest hall hmsg hdata hc hb hev
    have hn : envs.length + 2 ≤ w.events.length + 1 := by
      rw [hev]
      simp only [List.length_append, List.length_map, List.length_cons]
      omega
    rw [next, ← retrySeq_zero,
      nextLoop_backoff envs q 0 (w.events.length + 1) w full rest
        hall hmsg hdata hc hb hev hn]
    simp

/-- Witness for C7: two consecutive 503 responses followed by a 200 sleep
50ms then 100ms. -/
theorem backoff_doubling_capped_witness :
    all503 [notReady, notReady] ∧
    (makeRequest sampleQuery (getReq sampleQuery)
        (mkWorld [notReady, notReady,
          okJson emptyResult])).2.sleeps = [50, 100] := by
  have ha : all503 [notReady, notReady] := by
    intro e he
    fin_cases he <;> exact ⟨_, rfl, rfl⟩
  refine ⟨ha, ?_⟩
  have h := backoff_doubling_capped.2.2.2.1 sampleQuery (getReq sampleQuery)
    (mkWorld [notReady, notReady, okJson emptyResult])
    [notReady, notReady]
    { statusCode := 200, status := "200 OK", body := .json emptyResult } []
    ha rfl rfl
  rw [h]
  decide

/-! ## FIFO row delivery (C4) -/

theorem nextLoop_chain :
    ∀ (envs : List QueryResult) (q : Query) (retry n : Nat) (w : World),
      q.closed = false → q.bufferedRows = [] → goodChain envs →
      w.events = envs.map okJson → envs.length + 1 ≤ n →
      (((envs.map QueryResult.data).flatten = [] →
        ∃ qf wf, nextLoop n q retry w = (qf, none, none, wf) ∧
          qf.closed = true ∧ qf.bufferedRows = [] ∧ wf.events = []) ∧
      (∀ x xs, (envs.map QueryResult.data).flatten = x :: xs →
        ∃ q1 envs1 w1, nextLoop n q retry w = (q1, some x, none, w1) ∧
          chainCfg q1 envs1 w1 ∧ pending q1 envs1 = xs)) := by
  intro envs
  induction envs with
  | nil =>
    intro q retry n w _ _ hchain _ _
    exact absurd hchain (by simp [goodChain])
  | cons env envs ih =>
    intro q retry n w hc hb hchain hev hn
    obtain ⟨m, rfl⟩ : ∃ m, n = m + 1 := ⟨n - 1, by omega⟩
    rw [List.map_cons] at hev
    rw [nextLoop, if_pos ⟨hc, by simp [hb]⟩]
    have hq1b := applyEnvelope_bufferedRows q env
    cases envs with
    | nil =>
      obtain ⟨hmsg, huri⟩ :
          env.error.failureInfo.message = "" ∧ env.nextUri = "" := by
        simpa [goodChain] using hchain
      rw [fetchNext_okJson q w env [] (by simpa using hev) hmsg]
      dsimp only
      have hq1c : (applyEnvelope q env).closed = true := by
        simp [applyEnvelope, huri]
      have hm1 : 1 ≤ m := by simpa using hn
      obtain ⟨m2, rfl⟩ : ∃ m2, m = m2 + 1 := ⟨m - 1, by omega⟩
      have hguard : ¬ ((applyEnvelope q env).closed = false ∧
          (applyEnvelope q env).bufferedRows.length = 0) := by
        rintro ⟨hf, _⟩
        rw [hq1c] at hf
        exact Bool.noConfusion hf
      cases hd : env.data with
      | nil =>
        rw [if_pos (by rw [hq1b, hd]; rfl)]
        rw [nextLoop, if_neg hguard, hq1b, hd]
        dsimp only
        constructor
        · intro _
          exact ⟨_, _, rfl, hq1c, by rw [hq1b, hd], rfl⟩
        · intro x xs hjoin
          simp [hd] at hjoin
      | cons a l =>
        rw [if_neg (by rw [hq1b, hd]; simp)]
        rw [nextLoop, if_neg hguard, hq1b, hd]
        dsimp only
        constructor
        · intro hjoin
          simp [hd] at hjoin
        · intro x xs hjoin
          simp only [List.map_cons, List.map_nil, List.flatten_cons,
            List.flatten_nil, List.append_nil, hd, List.cons.injEq] at hjoin
          obtain ⟨rfl, rfl⟩ := hjoin
          refine ⟨_, [], _, rfl, ⟨rfl, Or.inr ⟨hq1c, rfl⟩⟩, ?_⟩
          simp [pending]
    | cons e2 rest2 =>
      obtain ⟨hmsg, huri, hchain2⟩ :
          env.error.failureInfo.message = "" ∧ env.nextUri ≠ "" ∧
            goodChain (e2 :: rest2) := by
        simpa [goodChain] using hchain
      rw [fetchNext_okJson q w env ((e2 :: rest2).map okJson) hev hmsg]
      dsimp only
      have hq1c : (applyEnvelope q env).closed = false :=
        applyEnvelope_open q env hc huri
      have hm : rest2.length + 2 ≤ m := by
        simp only [List.length_cons] at hn
        omega
      cases hd : env.data with
      | nil =>
        rw [if_pos (by rw [hq1b, hd]; rfl)]
        have H := ih (applyEnvelope q env) (nextRetry retry) m
          { events := List.map okJson (e2 :: rest2),
            reqs := w.reqs ++ [addHeaders q (getReq q)],
            sleeps := w.sleeps ++ [retry] }
          hq1c (by rw [hq1b, hd]) hchain2 rfl
          (by simp only [List.length_cons]; omega)
        constructor
        · intro hjoin
          apply H.1
          simpa [hd] using hjoin
        · intro x xs hjoin
          apply H.2 x xs
          simpa [hd] using hjoin
      | cons a l =>
        rw [if_neg (by rw [hq1b, hd]; simp)]
        obtain ⟨m2, rfl⟩ : ∃ m2, m = m2 + 1 := ⟨m - 1, by omega⟩
        have hguard : ¬ ((applyEnvelope q env).closed = false ∧
            (applyEnvelope q env).bufferedRows.length = 0) := by
          rintro ⟨_, h0⟩
          rw [hq1b, hd] at h0
          simp at h0
        rw [nextLoop, if_neg hguard, hq1b, hd]
        dsimp only
        constructor
        · intro hjoin
          simp [hd] at hjoin
        · intro x xs hjoin
          simp only [List.map_cons, List.flatten_cons, hd, List.cons_append,
            List.cons.injEq] at hjoin
          obtain ⟨rfl, hxs⟩ := hjoin
          refine ⟨_, e2 :: rest2, _, rfl, ⟨rfl, Or.inl ⟨hq1c, hchain2⟩⟩, ?_⟩
          simpa [pending] using hxs

theorem next_chain_step :
    ∀ (q : Query) (envs : List QueryResult) (w : World),
      chainCfg q envs w →
      ((pending q envs = [] →
         ∃ qf wf, next q w = (qf, none, none, wf)) ∧
      (∀ x xs, pending q envs = x :: xs →
         ∃ q1 envs1 w1, next q w = (q1, some x, none, w1) ∧
           chainCfg q1 envs1 w1 ∧ pending q1 envs1 = xs)) := by
  intro q envs w hcfg
  obtain ⟨hev, hcase⟩ := hcfg
  cases hbr : q.bufferedRows with
  | cons r rs =>
    have hnext := next_pop q w r rs hbr
    constructor
    · intro hp
      rw [pending, hbr] at hp
      simp at hp
    · intro x xs hp
      rw [pending, hbr] at hp
      simp only [List.cons_append, List.cons.injEq] at hp
      obtain ⟨rfl, hxs⟩ := hp
      refine ⟨_, envs, w, hnext, ⟨hev, ?_⟩, ?_⟩
      · rcases hcase with ⟨h1, h2⟩ | ⟨h1, h2⟩
        · exact Or.inl ⟨h1, h2⟩
        · exact Or.inr ⟨h1, h2⟩
      · simpa [pending] using hxs
  | nil =>
    rcases hcase with ⟨hc, hchain⟩ | ⟨hc, henvs⟩
    · have hn : envs.length + 1 ≤ w.events.length + 1 := by
        rw [hev]
        simp
      have H := nextLoop_chain envs q initialRetry (w.events.length + 1) w
        hc hbr hchain hev hn
      constructor
      · intro hp
        have hj : (envs.map QueryResult.data).flatten = [] := by
          simpa [pending, hbr] using hp
        obtain ⟨qf, wf, heq, _, _, _⟩ := H.1 hj
        exact ⟨qf, wf, heq⟩
      · intro x xs hp
        have hj : (envs.map QueryResult.data).flatten = x :: xs := by
          simpa [pending, hbr] using hp
        exact H.2 x xs hj
    · subst henvs
      constructor
      · intro _
        exact ⟨q, w, next_closed_empty q w hc hbr⟩
      · intro x xs hp
        rw [pending, hbr] at hp
        simp at hp

theorem drain_chain :
    ∀ (k : Nat) (q : Query) (envs : List QueryResult) (w : World),
      chainCfg q envs w → (pending q envs).length = k →
      (drain q w (k + 1)).1 = pending q envs ∧
      (drain q w (k + 1)).2.1 = none := by
  intro k
  induction k with
  | zero =>
    intro q envs w hcfg hlen
    have hp : pending q envs = [] := List.length_eq_zero.mp hlen
    obtain ⟨qf, wf, heq⟩ := (next_chain_step q envs w hcfg).1 hp
    rw [drain, heq]
    exact ⟨hp.symm, rfl⟩
  | succ k ih =>
    intro q envs w hcfg hlen
    obtain ⟨x, xs, hp⟩ : ∃ x xs, pending q envs = x :: xs := by
      cases hpe : pending q envs with
      | nil => rw [hpe] at hlen; simp at hlen
      | cons a l => exact ⟨a, l, rfl⟩
    obtain ⟨q1, envs1, w1, heq, hcfg1, hpend⟩ :=
      (next_chain_step q envs w hcfg).2 x xs hp
    have hlen1 : (pending q1 envs1).length = k := by
      rw [hpend]
      rw [hp] at hlen
      simpa using hlen
    have IH := ih q1 envs1 w1 hcfg1 hlen1
    rcases hd : drain q1 w1 (k + 1) with ⟨rows, e2, w2⟩
    rw [hd] at IH
    rw [drain, heq]
    dsimp only
    rw [hd]
    dsimp only
    rw [hp, hpend] at *
    have h1 : rows = xs := IH.1
    exact ⟨by rw [h1], IH.2⟩

/-- C4: for any error-free chain of poll responses ending with an empty
continuation handle, draining a live session with successive `next` calls
delivers exactly the in-order concatenation of the chain's row batches —
rows are popped FIFO from the front of the buffer, a new batch replaces
the buffer only when the buffer is empty, and no row is reordered,
duplicated, or dropped — with no error. -/
theorem rows_fifo_concatenation :
    ∀ (envs : List QueryResult) (q : Query) (w : World),
      q.closed = false → q.bufferedRows = [] → goodChain envs →
      w.events = envs.map okJson →
      (drain q w ((envs.map QueryResult.data).flatten.length + 1)).1 =
        (envs.map QueryResult.data).flatten ∧
      (drain q w ((envs.map QueryResult.data).flatten.length + 1)).2.1 =
        none := by
  intro envs q w hc hb hchain hev
  have hp : pending q envs = (envs.map QueryResult.data).flatten := by
    simp [pending, hb]
  have H := drain_chain (envs.map QueryResult.data).flatten.length q envs w
    ⟨hev, Or.inl ⟨hc, hchain⟩⟩ (by rw [hp])
  rw [hp] at H
  exact H

/-- Witness for C4: the two-batch chain delivers row1 then row2. -/
theorem rows_fifo_concatenation_witness :
    sampleQuery.closed = false ∧ sampleQuery.bufferedRows = [] ∧
    goodChain chainEnvs ∧
    (drain sampleQuery (mkWorld (chainEnvs.map okJson))
        ((chainEnvs.map QueryResult.data).flatten.length + 1)).1 =
      [row1, row2] := by
  have hchain : goodChain chainEnvs := ⟨rfl, by decide, rfl, rfl⟩
  refine ⟨rfl, rfl, hchain, ?_⟩
  have H := (rows_fifo_concatenation chainEnvs sampleQuery
    (mkWorld (chainEnvs.map okJson)) rfl rfl hchain rfl).1
  rw [H]
  rfl

end Presto

